import Mathlib

/-!
# Verification of the dailytaskmanager task persistence and mutation core

Shallow embedding of the two task-manager implementations in this repository:

* `src/main_v44_free_worked_tst.py` (`TaskManager` over a SQL Server store,
  `TaskManagerApp` with a bounded delete/undo stack), embedded in namespace `V44`;
* `src/task_manager_v1.1.py` (`DailyTaskManager` over a JSON file with an
  undo/redo action stack), embedded in namespace `V11`.

Python integers are embedded as `Int`/`Nat`, strings as `String` (or `List Char`
where character-level structure matters), dictionaries as structures, datetimes
as explicit records.  Database rows are list elements; the connection's pending
transaction is modelled by a pair of task lists (`committed`, `working`):
`cursor.execute` of a DML statement edits `working`, `conn.commit()` publishes
`working` into `committed`, and `ROLLBACK TRANSACTION` restores `working` from
`committed`.  This captures the two facts the claims depend on: a `DELETE` whose
`WHERE id = ?` matches no row succeeds (affecting zero rows), and a rollback
issued after `conn.commit()` cannot restore data that commit already published.
-/

namespace PyDate

/-- Digit characters to the number they denote, most significant first. -/
def digitsToNat (cs : List Char) : Nat :=
  cs.foldl (fun a c => a * 10 + (c.toNat - 48)) 0

/-- Gregorian leap year, as used by Python's `datetime.date`. -/
def isLeap (y : Nat) : Bool :=
  y % 4 = 0 && (y % 100 ≠ 0 || y % 400 = 0)

/-- Length of a month in the proleptic Gregorian calendar. -/
def daysInMonth (y m : Nat) : Nat :=
  if m = 2 then (if isLeap y then 29 else 28)
  else if m = 4 ∨ m = 6 ∨ m = 9 ∨ m = 11 then 30
  else 31

/-- Python's `str.split(sep)` for a single-character separator. -/
def splitOnChar (sep : Char) (cs : List Char) : List (List Char) :=
  cs.foldr
    (fun c acc =>
      if c = sep then [] :: acc
      else
        match acc with
        | g :: rest => (c :: g) :: rest
        | [] => [[c]])
    [[]]

/-- `datetime.datetime.strptime(s, "%Y-%m-%d")`: `%Y` matches exactly four
digits, `%m` and `%d` one or two, separated by literal hyphens, and the
resulting fields must form a real calendar date with year at least 1. -/
def parseYMD (s : String) : Option (Nat × Nat × Nat) :=
  match splitOnChar '-' s.data with
  | [yc, mc, dc] =>
    if yc.length = 4 && (mc.length = 1 || mc.length = 2)
        && (dc.length = 1 || dc.length = 2)
        && yc.all Char.isDigit && mc.all Char.isDigit && dc.all Char.isDigit then
      let y := digitsToNat yc
      let m := digitsToNat mc
      let d := digitsToNat dc
      if 1 ≤ y ∧ 1 ≤ m ∧ m ≤ 12 ∧ 1 ≤ d ∧ d ≤ daysInMonth y m then
        some (y, m, d)
      else none
    else none
  | _ => none

/-- Day number of a proleptic Gregorian date, counted from 0000-03-01
(the standard era-based civil-date formula); differences of day numbers are
exactly the day differences Python's `date` subtraction yields. -/
def daysFromCivil (y m d : Nat) : Nat :=
  let yAdj := if m ≤ 2 then y - 1 else y
  let era := yAdj / 400
  let yoe := yAdj % 400
  let mp := if m > 2 then m - 3 else m + 9
  let doy := (153 * mp + 2) / 5 + (d - 1)
  let doe := yoe * 365 + yoe / 4 - yoe / 100 + doy
  era * 146097 + doe

end PyDate

namespace V44

/-- A row of the `Tasks` table, as materialised by `TaskManager._load_tasks`
(`src/main_v44_free_worked_tst.py`, lines 2354-2398): the 23 columns of the
`Tasks` table.  Optional columns are `Option`; dates are kept as the strings the
code stores and reloads. -/
structure Task where
  id : Int
  title : String
  description : String
  created_date : String
  created_by : String
  due_date : Option String
  priority : String
  category : String
  main_staff : Option String
  assigned_to : Option String
  completed : Bool
  applied_vessel : String
  rev : String
  drawing_no : String
  link : String
  sdb_link : String
  request_no : String
  requested_date : Option String
  date_started : Option String
  qtd_mhr : Int
  actual_mhr : Int
  last_modified : Option String
  modified_by : Option String
deriving Repr, DecidableEq

/-- Python's `str.lower()` (the priorities involved are ASCII): per-character
lowercasing of the string's characters. -/
def pyLower (s : String) : String :=
  ⟨s.data.map Char.toLower⟩

/-- `max(task.get("id", 0) for task in tasks)` over a non-empty list:
Python's `max` folds `max` starting from the first element. -/
def maxId : List Task → Int
  | [] => 0
  | t :: ts => ts.foldl (fun m u => max m u.id) t.id

/-- The id generated by `TaskManager.add_task` (lines 2430-2433):
`1` for an empty task set, otherwise `max(existing ids) + 1`. -/
def newTaskId (tasks : List Task) : Int :=
  if tasks = [] then 1 else maxId tasks + 1

/-- `TaskManager._find_task_by_id` restricted to the in-memory list model:
`SELECT * FROM Tasks WHERE id = ?` returning the first matching row. -/
def findById (tasks : List Task) (taskId : Int) : Option Task :=
  tasks.find? (fun t => t.id = taskId)

/-- The row built and inserted by `TaskManager.add_task` (lines 2453-2466):
note the literal `False` in the `completed` column and the freshly stamped
`created_date`/`created_by`; `last_modified`/`modified_by` are not in the
INSERT column list, hence NULL. -/
def addTaskRow (tasks : List Task) (today user : String)
    (title description : String) (due_date : Option String)
    (priority category : String) (main_staff assigned_to : Option String)
    (applied_vessel rev drawing_no link sdb_link request_no : String)
    (requested_date date_started : Option String)
    (qtd_mhr actual_mhr : Int) : Task :=
  { id := newTaskId tasks
    title := title
    description := description
    created_date := today
    created_by := user
    due_date := due_date
    priority := pyLower priority
    category := category
    main_staff := main_staff
    assigned_to := assigned_to
    completed := false
    applied_vessel := applied_vessel
    rev := rev
    drawing_no := drawing_no
    link := link
    sdb_link := sdb_link
    request_no := request_no
    requested_date := requested_date
    date_started := date_started
    qtd_mhr := qtd_mhr
    actual_mhr := actual_mhr
    last_modified := none
    modified_by := none }

/-- `TaskManager.add_task` (lines 2421-2478): generate `new_id`, abort on an id
conflict (the defensive `_find_task_by_id(new_id)` check at line 2436),
otherwise INSERT the new row and reload. -/
def addTask (tasks : List Task) (today user : String)
    (title description : String) (due_date : Option String)
    (priority category : String) (main_staff assigned_to : Option String)
    (applied_vessel rev drawing_no link sdb_link request_no : String)
    (requested_date date_started : Option String)
    (qtd_mhr actual_mhr : Int) : List Task :=
  if (findById tasks (newTaskId tasks)).isSome then
    tasks
  else
    tasks ++ [addTaskRow tasks today user title description due_date priority category
      main_staff assigned_to applied_vessel rev drawing_no link sdb_link request_no
      requested_date date_started qtd_mhr actual_mhr]

/-- The connection state of `TaskManager`: `committed` is what the database
holds durably, `working` is what this connection's statements see and edit
before `conn.commit()` publishes them. -/
structure DB where
  committed : List Task
  working : List Task
deriving Repr, DecidableEq

/-- `cursor.execute("DELETE FROM Tasks WHERE id = ?", (task_id,))`: removes the
matching rows from the working set.  A `task_id` matching no row affects zero
rows and still succeeds — SQL raises no error for an empty `WHERE` match. -/
def execDelete (db : DB) (taskId : Int) : DB :=
  { db with working := db.working.filter (fun t => t.id ≠ taskId) }

/-- `self.conn.commit()`: publish the working set durably. -/
def connCommit (db : DB) : DB :=
  { committed := db.working, working := db.working }

/-- `TaskManager.rollback_transaction` (`ROLLBACK TRANSACTION`): discard the
working edits not yet published by a commit. -/
def rollbackTransaction (db : DB) : DB :=
  { db with working := db.committed }

/-- `TaskManager.commit_transaction` (`COMMIT TRANSACTION`). -/
def commitTransaction (db : DB) : DB :=
  connCommit db

/-- `TaskManager.batch_delete_tasks` (lines 2738-2773): one `DELETE ... WHERE
id = ?` per id, collecting each id into `successful_deletions` unless the
statement itself raises (`pyodbc.Error`, i.e. the backend fails — not an
absent id), then `conn.commit()`.  With a reachable backend every id lands in
`successful_deletions` and `failed_deletions` stays empty. -/
def batchDeleteTasks (db : DB) (taskIds : List Int) : DB × List Int × List Int :=
  let db1 := taskIds.foldl execDelete db
  (connCommit db1, taskIds, [])

/-- A `deletion_record` pushed by `TaskManagerApp.delete_task` (lines 901-905):
the snapshot of every resolvable task plus the requested ids, stamped with
`datetime.datetime.now()` (modelled as an opaque `Nat`). -/
structure DeletionRecord where
  timestamp : Nat
  tasks : List Task
  task_ids : List Int
deriving Repr, DecidableEq

/-- `self.max_undo_stack_size = 10` (`TaskManagerApp.__init__`, line 93). -/
def maxUndoStackSize : Nat := 10

/-- Lines 908-910: `append` the record, then `pop(0)` once if the stack grew
past `max_undo_stack_size`. -/
def pushEvict (stack : List DeletionRecord) (rec : DeletionRecord) : List DeletionRecord :=
  let s := stack ++ [rec]
  if s.length > maxUndoStackSize then s.tail else s

/-- The at-rest state of `TaskManagerApp`: the persisted task set (between
operations `working = committed`, so a single list) and the delete/undo
stack. -/
structure AppState where
  tasks : List Task
  deletedTasksStack : List DeletionRecord
deriving Repr, DecidableEq

/-- `TaskManagerApp.delete_task` (lines 876-937), after the user confirms:
begin a transaction, snapshot the resolvable tasks, early-return if none
resolve, push the deletion record (with eviction), run `batch_delete_tasks`,
then roll back and pop the record if any id failed, else commit.  In the model
the backend is reachable, so `failed_deletions` is always empty; the rollback
branch is kept for fidelity. -/
def deleteTaskApp (now : Nat) (st : AppState) (taskIds : List Int) : AppState :=
  if taskIds = [] then st
  else
    let db0 : DB := { committed := st.tasks, working := st.tasks }
    let tasksToDelete := taskIds.filterMap (fun i => findById db0.working i)
    if tasksToDelete = [] then st
    else
      let rec1 : DeletionRecord := ⟨now, tasksToDelete, taskIds⟩
      let stack1 := pushEvict st.deletedTasksStack rec1
      let res := batchDeleteTasks db0 taskIds
      if res.2.2 = [] then
        { tasks := (commitTransaction res.1).committed, deletedTasksStack := stack1 }
      else
        { tasks := (rollbackTransaction res.1).committed
          deletedTasksStack := stack1.dropLast }

/-- The `validate_date` helper inside `TaskManager.update_task` (lines
2627-2635): a falsy or unparseable date becomes `None`, a valid
`YYYY-MM-DD` string passes through. -/
def validateDate : Option String → Option String
  | none => none
  | some s => if (PyDate.parseYMD s).isSome then some s else none

/-- The column assignments issued by `update_task` when `undo_delete` restores
into an existing row (lines 1516-1536): exactly the 18 content fields of the
snapshot, with the three date kwargs passed through `validate_date`; the
provenance columns (`created_date`, `created_by`, `last_modified`,
`modified_by`) are not among the kwargs and keep the live row's values. -/
def applyRestoreUpdate (t r : Task) : Task :=
  { r with
    title := t.title
    description := t.description
    due_date := validateDate t.due_date
    priority := t.priority
    category := t.category
    main_staff := t.main_staff
    assigned_to := t.assigned_to
    applied_vessel := t.applied_vessel
    rev := t.rev
    drawing_no := t.drawing_no
    link := t.link
    sdb_link := t.sdb_link
    request_no := t.request_no
    requested_date := validateDate t.requested_date
    date_started := validateDate t.date_started
    qtd_mhr := t.qtd_mhr
    actual_mhr := t.actual_mhr
    completed := t.completed }

/-- `TaskManager.update_task` as invoked by `undo_delete`'s occupied-id branch:
`UPDATE Tasks SET ... WHERE id = ?` on the working set, then `conn.commit()`. -/
def updateTaskRestore (db : DB) (t : Task) : DB :=
  connCommit { db with
    working := db.working.map (fun r => if r.id = t.id then applyRestoreUpdate t r else r) }

/-- The row inserted by `TaskManager.add_task_direct_id` (lines 2480-2543) for
a snapshot `t`: the original `id` and content fields, but `created_date` and
`last_modified` stamped with the restore date, `created_by` and `modified_by`
with the restoring user, and `priority` lowercased. -/
def restamp (today user : String) (t : Task) : Task :=
  { t with
    created_date := today
    created_by := user
    last_modified := some today
    modified_by := some user
    priority := pyLower t.priority }

/-- `TaskManager.add_task_direct_id`: INSERT the restamped row (with the
caller-supplied id, not a regenerated one), then `conn.commit()`. -/
def addTaskDirectId (today user : String) (db : DB) (t : Task) : DB :=
  connCommit { db with working := db.working ++ [restamp today user t] }

/-- The body of `undo_delete`'s restore loop (lines 1509-1559) for one
snapshot task: `_find_task_by_id` first; a live row with that id is updated
in place, otherwise the task is re-inserted via `add_task_direct_id`. -/
def restoreOne (today user : String) (db : DB) (t : Task) : DB :=
  match findById db.working t.id with
  | some _ => updateTaskRestore db t
  | none => addTaskDirectId today user db t

/-- `TaskManagerApp.undo_delete` (lines 1493-1584): pop the most recent
deletion record, restore each snapshot task, commit if anything was restored
(in the model every restore succeeds), else roll back. -/
def undoDeleteApp (today user : String) (st : AppState) : AppState :=
  match st.deletedTasksStack.getLast? with
  | none => st
  | some rec1 =>
    let stack1 := st.deletedTasksStack.dropLast
    let db0 : DB := { committed := st.tasks, working := st.tasks }
    let db1 := rec1.tasks.foldl (restoreOne today user) db0
    if rec1.tasks = [] then
      { tasks := (rollbackTransaction db1).committed, deletedTasksStack := stack1 }
    else
      { tasks := (commitTransaction db1).committed, deletedTasksStack := stack1 }

/-- A task whose provenance fields are erased: two tasks are "equal up to
provenance" when `stripProv` maps them to the same value.  `id` and every
content field survive. -/
def stripProv (t : Task) : Task :=
  { t with
    created_date := ""
    created_by := ""
    last_modified := none
    modified_by := none }

/-- A minimal concrete task row used by the concrete instances below. -/
def sampleTask (i : Int) (createdBy : String) : Task :=
  { id := i
    title := "calibrate sensor"
    description := ""
    created_date := "2020-01-01"
    created_by := createdBy
    due_date := none
    priority := "medium"
    category := "general"
    main_staff := none
    assigned_to := none
    completed := false
    applied_vessel := ""
    rev := ""
    drawing_no := ""
    link := ""
    sdb_link := ""
    request_no := ""
    requested_date := none
    date_started := none
    qtd_mhr := 0
    actual_mhr := 0
    last_modified := none
    modified_by := none }

/-- The operations that touch `deleted_tasks_stack`: `delete_task` records a
deletion (push with eviction), `undo_delete` pops the most recent record. -/
inductive HistOp where
  | record (r : DeletionRecord)
  | undo
deriving Repr, DecidableEq

/-- Effect of one history operation on the stack: `record` is `pushEvict`
(lines 908-910), `undo` is the `pop()` of `undo_delete` (line 1504). -/
def applyHistOp (s : List DeletionRecord) : HistOp → List DeletionRecord
  | .record r => pushEvict s r
  | .undo => s.dropLast

/-- A whole sequence of history operations. -/
def applyHistOps (s : List DeletionRecord) (ops : List HistOp) : List DeletionRecord :=
  ops.foldl applyHistOp s

/-- `f"{n:04d}"` for a non-negative `n`: decimal digits left-padded with
zeroes to at least four characters. -/
def fmt04 (n : Nat) : List Char :=
  let ds := Nat.toDigits 10 n
  List.replicate (4 - ds.length) '0' ++ ds

/-- Python string `<`: lexicographic comparison by code point. -/
def strLtB : List Char → List Char → Bool
  | [], [] => false
  | [], _ :: _ => true
  | _ :: _, [] => false
  | a :: as, b :: bs => if a < b then true else if b < a then false else strLtB as bs

/-- Python tuple `<` on the `(int, str)` keys `status_key` returns. -/
def keyLt (k1 k2 : Nat × List Char) : Bool :=
  if k1.1 < k2.1 then true
  else if k2.1 < k1.1 then false
  else strLtB k1.2 k2.2

/-- `TaskManagerApp.apply_sorting`'s `status_key` (lines 1419-1439), with
`datetime.date.today()` passed in as the civil day number `todayN`:
completed tasks get `(2, "")`, a falsy or unparseable due date `(1, "")`,
an overdue task `(0, f"{abs(days):04d}")` and a pending dated task
`(0, f"{days+10000:04d}")`. -/
def statusKey (todayN : Nat) (t : Task) : Nat × List Char :=
  if t.completed then (2, [])
  else
    match t.due_date with
    | none => (1, [])
    | some s =>
      if s = "" then (1, [])
      else
        match PyDate.parseYMD s with
        | none => (1, [])
        | some (y, m, d) =>
          let days : Int := (PyDate.daysFromCivil y m d : Int) - (todayN : Int)
          if days < 0 then (0, fmt04 days.natAbs)
          else (0, fmt04 (days.toNat + 10000))

/-- The overdue condition of `status_key`: pending, with a parseable due
date strictly before today. -/
def isOverdue (todayN : Nat) (t : Task) : Bool :=
  if t.completed then false
  else
    match t.due_date with
    | none => false
    | some s =>
      if s = "" then false
      else
        match PyDate.parseYMD s with
        | none => false
        | some (y, m, d) => (PyDate.daysFromCivil y m d : Int) - (todayN : Int) < 0

/-- `tasks.sort(key=status_key)` with `reverse=False`: Python's sort is
stable and ascending by key, so any stable sort by
`a ≤ b ↔ ¬ key b < key a` computes the same list; `insertionSort` with that
relation is such a sort. -/
def applySortingStatus (todayN : Nat) (tasks : List Task) : List Task :=
  List.insertionSort (fun a b => (!(keyLt (statusKey todayN b) (statusKey todayN a))) = true)
    tasks

/-- A pending task with id `i` and due date `d`, otherwise like `sampleTask`. -/
def taskDue (i : Int) (d : String) : Task :=
  { sampleTask i "alice" with due_date := some d }

/-- 2026-01-01 as a civil day number — the `today` of the failing run. -/
def c8Today : Nat := PyDate.daysFromCivil 2026 1 1

end V44

namespace V11

/-- A naive `datetime.datetime` value, as produced by
`datetime.strptime`/`datetime.fromisoformat` in `src/task_manager_v1.1.py`
(reminders carry no timezone). -/
structure PyDateTime where
  year : Nat
  month : Nat
  day : Nat
  hour : Nat
  minute : Nat
  second : Nat
  microsecond : Nat
deriving Repr, DecidableEq

/-- The decimal digit character for `d < 10`. -/
def dchar (d : Nat) : Char := Char.ofNat (48 + d)

/-- Two-digit zero-padded decimal rendering; `datetime` fields printed with
this are below 100 by construction. -/
def pad2 (n : Nat) : List Char := [dchar (n / 10), dchar (n % 10)]

/-- Four-digit zero-padded decimal rendering (years, below 10000). -/
def pad4 (n : Nat) : List Char :=
  [dchar (n / 1000), dchar (n / 100 % 10), dchar (n / 10 % 10), dchar (n % 10)]

/-- Six-digit zero-padded decimal rendering (microseconds, below 1000000). -/
def pad6 (n : Nat) : List Char :=
  [dchar (n / 100000), dchar (n / 10000 % 10), dchar (n / 1000 % 10),
   dchar (n / 100 % 10), dchar (n / 10 % 10), dchar (n % 10)]

/-- `datetime.isoformat()`: `YYYY-MM-DDTHH:MM:SS`, with `.ffffff` appended
only when the microsecond field is non-zero. -/
def isoformat (t : PyDateTime) : List Char :=
  pad4 t.year ++ '-' :: pad2 t.month ++ '-' :: pad2 t.day
    ++ 'T' :: pad2 t.hour ++ ':' :: pad2 t.minute ++ ':' :: pad2 t.second
    ++ (if t.microsecond = 0 then [] else '.' :: pad6 t.microsecond)

/-- Value of a decimal digit character. -/
def digitVal (c : Char) : Option Nat :=
  if c.isDigit then some (c.toNat - 48) else none

/-- Parse exactly two digit characters. -/
def parse2 (a b : Char) : Option Nat :=
  match digitVal a, digitVal b with
  | some x, some y => some (10 * x + y)
  | _, _ => none

/-- Parse exactly four digit characters. -/
def parse4 (a b c d : Char) : Option Nat :=
  match digitVal a, digitVal b, digitVal c, digitVal d with
  | some x, some y, some z, some w => some (1000 * x + 100 * y + 10 * z + w)
  | _, _, _, _ => none

/-- Parse exactly six digit characters. -/
def parse6 (a b c d e f : Char) : Option Nat :=
  match digitVal a, digitVal b, digitVal c, digitVal d, digitVal e, digitVal f with
  | some u, some v, some w, some x, some y, some z =>
    some (100000 * u + 10000 * v + 1000 * w + 100 * x + 10 * y + z)
  | _, _, _, _, _, _ => none

/-- The field ranges `datetime.datetime` enforces at construction (and that
`fromisoformat` re-validates while parsing). -/
def validDT (t : PyDateTime) : Prop :=
  1 ≤ t.year ∧ t.year ≤ 9999 ∧ 1 ≤ t.month ∧ t.month ≤ 12
    ∧ 1 ≤ t.day ∧ t.day ≤ PyDate.daysInMonth t.year t.month
    ∧ t.hour ≤ 23 ∧ t.minute ≤ 59 ∧ t.second ≤ 59 ∧ t.microsecond ≤ 999999

instance (t : PyDateTime) : Decidable (validDT t) := by
  unfold validDT
  infer_instance

/-- The `datetime` constructor: reject out-of-range fields. -/
def mkValid (y mo d h mi s u : Nat) : Option PyDateTime :=
  let t : PyDateTime := ⟨y, mo, d, h, mi, s, u⟩
  if validDT t then some t else none

/-- `datetime.fromisoformat` on the grammar `isoformat` emits
(`YYYY-MM-DDTHH:MM:SS` with optional `.ffffff`); anything else is a parse
error (`None` here, `ValueError` in Python). -/
def fromisoformat (cs : List Char) : Option PyDateTime :=
  match cs with
  | y1 :: y2 :: y3 :: y4 :: c1 :: m1 :: m2 :: c2 :: d1 :: d2 :: c3 :: h1 :: h2
      :: c4 :: n1 :: n2 :: c5 :: s1 :: s2 :: rest =>
    if c1 = '-' ∧ c2 = '-' ∧ c3 = 'T' ∧ c4 = ':' ∧ c5 = ':' then
      match parse4 y1 y2 y3 y4, parse2 m1 m2, parse2 d1 d2,
          parse2 h1 h2, parse2 n1 n2, parse2 s1 s2 with
      | some y, some mo, some d, some h, some mi, some s =>
        match rest with
        | [] => mkValid y mo d h mi s 0
        | c6 :: u1 :: u2 :: u3 :: u4 :: u5 :: u6 :: [] =>
          if c6 = '.' then
            match parse6 u1 u2 u3 u4 u5 u6 with
            | some u => mkValid y mo d h mi s u
            | none => none
          else none
        | _ => none
      | _, _, _, _, _, _ => none
    else none
  | _ => none

/-- The `Task` class of `src/task_manager_v1.1.py` (lines 68-77). -/
structure Task where
  title : String
  description : String
  priority : String
  due_date : String
  completed : Bool
  category : String
  reminders : List PyDateTime
  notes : String
deriving Repr, DecidableEq

/-- The JSON dictionary form of a task.  `Task.from_dict` indexes `title`,
`description`, `priority`, `due_date` and `completed` directly (required) and
uses `.get` with a default for `category`, `reminders` and `notes`
(`Option` here). -/
structure TaskDict where
  title : String
  description : String
  priority : String
  due_date : String
  completed : Bool
  category : Option String
  reminders : Option (List (List Char))
  notes : Option String
deriving Repr, DecidableEq

/-- `Task.to_dict` (lines 79-89): every field serialised, reminders as
their `isoformat()` strings. -/
def toDict (t : Task) : TaskDict :=
  { title := t.title
    description := t.description
    priority := t.priority
    due_date := t.due_date
    completed := t.completed
    category := some t.category
    reminders := some (t.reminders.map isoformat)
    notes := some t.notes }

/-- `Task.from_dict` (lines 91-103): parse each reminder string back
(`None` models the `ValueError` a malformed string raises mid list
comprehension), default `category` to `"General"` and `notes` to `""`. -/
def fromDict (d : TaskDict) : Option Task :=
  match (d.reminders.getD []).mapM fromisoformat with
  | some rems =>
    some { title := d.title
           description := d.description
           priority := d.priority
           due_date := d.due_date
           completed := d.completed
           category := d.category.getD "General"
           reminders := rems
           notes := d.notes.getD "" }
  | none => none

/-- An undo/redo `Action` (lines 105-110): one variant per `action_type`,
with the states each variant actually stores (dicts for `add`/`edit`/`delete`,
the raw task list for `clear_completed`). -/
inductive Action where
  | add (index : Nat) (newState : TaskDict)
  | edit (index : Nat) (oldState newState : TaskDict)
  | delete (index : Nat) (oldState : TaskDict)
  | clearCompleted (oldTasks : List Task)
deriving Repr, DecidableEq

/-- The mutable state of `DailyTaskManager`: the task list and the two
action stacks. -/
structure AppState where
  tasks : List Task
  undoStack : List Action
  redoStack : List Action
deriving Repr, DecidableEq

/-- `DailyTaskManager.record_action` (lines 892-895): append to the undo
stack — with no bound — and clear the redo stack. -/
def recordAction (s : AppState) (a : Action) : AppState :=
  { s with undoStack := s.undoStack ++ [a], redoStack := [] }

/-- Python's `str.strip()`: drop leading and trailing whitespace
(kernel-computable, unlike `String.trim`). -/
def pyStrip (s : String) : String :=
  ⟨((s.data.dropWhile Char.isWhitespace).reverse.dropWhile Char.isWhitespace).reverse⟩

/-- The user-entered form fields consumed by `add_task`/`edit_task`. -/
structure RawInput where
  title : String
  description : String
  priority : String
  due_date : String
  completed : Bool
  category : String
  notes : String
deriving Repr, DecidableEq

/-- `DailyTaskManager.add_task` (lines 510-543): reject an empty or
placeholder title, blank out the placeholder description, append the new
task and record an `add` action at index `len(tasks) - 1`. -/
def addTaskOp (raw : RawInput) (s : AppState) : AppState :=
  let title := pyStrip raw.title
  if title = "" ∨ title = "Enter task title here" then s
  else
    let desc0 := pyStrip raw.description
    let desc := if desc0 = "Enter task description here" then "" else desc0
    let task : Task :=
      { title := title, description := desc, priority := raw.priority
        due_date := raw.due_date, completed := raw.completed
        category := pyStrip raw.category, reminders := [], notes := pyStrip raw.notes }
    let s1 := { s with tasks := s.tasks ++ [task] }
    recordAction s1 (Action.add (s1.tasks.length - 1) (toDict task))

/-- `DailyTaskManager.edit_task` (lines 545-592): same title validation,
replace the task at the selected index keeping its reminders, record an
`edit` action with both snapshots.  An out-of-range index raises in Python
before any state change (modelled as no change). -/
def editTaskOp (index : Nat) (raw : RawInput) (s : AppState) : AppState :=
  if h : index < s.tasks.length then
    let title := pyStrip raw.title
    if title = "" ∨ title = "Enter task title here" then s
    else
      let old := s.tasks[index]
      let desc0 := pyStrip raw.description
      let desc := if desc0 = "Enter task description here" then "" else desc0
      let newTask : Task :=
        { title := title, description := desc, priority := raw.priority
          due_date := raw.due_date, completed := raw.completed
          category := pyStrip raw.category, reminders := old.reminders
          notes := pyStrip raw.notes }
      let s1 := { s with tasks := s.tasks.set index newTask }
      recordAction s1 (Action.edit index (toDict old) (toDict newTask))
  else s

/-- Python's `list.insert(i, x)`: clamps the index, appending when `i` is
past the end (Lean's `insertIdx` instead leaves the list unchanged there). -/
def pyInsert (l : List Task) (i : Nat) (t : Task) : List Task :=
  if i ≤ l.length then l.insertIdx i t else l ++ [t]

/-- `DailyTaskManager.undo` (lines 897-918): pop the last undo entry, push
it onto the redo stack, and reverse it — `add` deletes at the recorded
index, `edit` re-installs the old state, `delete` re-inserts the old state
at its index, `clear_completed` restores the saved list.  A `from_dict`
parse failure raises after the stacks moved but before the task list
changed. -/
def undoOp (s : AppState) : AppState :=
  match s.undoStack.getLast? with
  | none => s
  | some a =>
    let undo1 := s.undoStack.dropLast
    let redo1 := s.redoStack ++ [a]
    let tasks1 :=
      match a with
      | .add i _ => s.tasks.eraseIdx i
      | .edit i old _ =>
        match fromDict old with
        | some t => s.tasks.set i t
        | none => s.tasks
      | .delete i old =>
        match fromDict old with
        | some t => pyInsert s.tasks i t
        | none => s.tasks
      | .clearCompleted old => old
    { tasks := tasks1, undoStack := undo1, redoStack := redo1 }

/-- `DailyTaskManager.redo` (lines 920-940): the mirror image of `undo`. -/
def redoOp (s : AppState) : AppState :=
  match s.redoStack.getLast? with
  | none => s
  | some a =>
    let redo1 := s.redoStack.dropLast
    let undo1 := s.undoStack ++ [a]
    let tasks1 :=
      match a with
      | .add _ newState =>
        match fromDict newState with
        | some t => s.tasks ++ [t]
        | none => s.tasks
      | .edit i _ newState =>
        match fromDict newState with
        | some t => s.tasks.set i t
        | none => s.tasks
      | .delete i _ => s.tasks.eraseIdx i
      | .clearCompleted _ => s.tasks.filter (fun t => !t.completed)
    { tasks := tasks1, undoStack := undo1, redoStack := redo1 }

/-- `DailyTaskManager.import_tasks` (lines 757-773): parse every record of
the chosen file with `Task.from_dict` — with no title (or any other)
validation — and extend the task list; an exception mid-import leaves the
list unchanged. -/
def importTasks (s : AppState) (data : List TaskDict) : AppState :=
  match data.mapM fromDict with
  | some newTasks => { s with tasks := s.tasks ++ newTasks }
  | none => s

/-- A concrete reminder timestamp, 2025-03-01 10:30:00. -/
def sampleReminder : PyDateTime := ⟨2025, 3, 1, 10, 30, 0, 0⟩

/-- A concrete v1.1 task with one reminder. -/
def sampleTaskV11 : Task :=
  { title := "calibrate sensor", description := "", priority := "High"
    due_date := "2025-03-01", completed := false, category := "General"
    reminders := [sampleReminder], notes := "" }

/-- The title recorded in an action's snapshots is non-empty — the payload
side of the non-empty-title invariant. -/
def actionOk : Action → Prop
  | .add _ newState => newState.title ≠ ""
  | .edit _ oldState newState => oldState.title ≠ "" ∧ newState.title ≠ ""
  | .delete _ oldState => oldState.title ≠ ""
  | .clearCompleted oldTasks => ∀ t ∈ oldTasks, t.title ≠ ""

instance : (a : Action) → Decidable (actionOk a)
  | .add _ n => inferInstanceAs (Decidable (n.title ≠ ""))
  | .edit _ _ _ => inferInstanceAs (Decidable (_ ∧ _))
  | .delete _ o => inferInstanceAs (Decidable (o.title ≠ ""))
  | .clearCompleted old => inferInstanceAs (Decidable (∀ t ∈ old, t.title ≠ ""))

/-- The non-empty-title invariant over a whole `DailyTaskManager` state:
every persisted task and every snapshot on either action stack has a
non-empty title. -/
def StateInv (s : AppState) : Prop :=
  (∀ t ∈ s.tasks, t.title ≠ "")
    ∧ (∀ a ∈ s.undoStack, actionOk a)
    ∧ (∀ a ∈ s.redoStack, actionOk a)

instance (s : AppState) : Decidable (StateInv s) := by
  unfold StateInv
  infer_instance

/-- A concrete filled-in form input. -/
def sampleRaw : RawInput :=
  { title := "calibrate sensor", description := "", priority := "High"
    due_date := "2025-03-01", completed := false, category := "", notes := "" }

end V11

namespace PyDate

theorem daysInMonth_le_31 (y m : Nat) : daysInMonth y m ≤ 31 := by
  unfold daysInMonth
  split
  · split <;> omega
  · split <;> omega

end PyDate

namespace V44

theorem init_le_foldl_max (l : List Task) (a : Int) :
    a ≤ l.foldl (fun m v => max m v.id) a := by
  induction l generalizing a with
  | nil => simp
  | cons x xs ih =>
    simpa using le_trans (le_max_left a x.id) (ih (max a x.id))

theorem mem_le_foldl_max {t : Task} (l : List Task) (a : Int) (h : t ∈ l) :
    t.id ≤ l.foldl (fun m v => max m v.id) a := by
  induction l generalizing a with
  | nil => cases h
  | cons x xs ih =>
    rw [List.mem_cons] at h
    rcases h with h | h
    · subst h
      simpa using le_trans (le_max_right a t.id) (init_le_foldl_max xs (max a t.id))
    · simpa using ih (max a x.id) h

theorem le_maxId_of_mem {t : Task} {ts : List Task} (h : t ∈ ts) : t.id ≤ maxId ts := by
  match ts, h with
  | u :: us, h =>
    simp only [maxId]
    rw [List.mem_cons] at h
    rcases h with h | h
    · subst h; exact init_le_foldl_max us t.id
    · exact mem_le_foldl_max us u.id h

theorem findById_newTaskId (tasks : List Task) :
    findById tasks (newTaskId tasks) = none := by
  unfold findById
  rw [List.find?_eq_none]
  intro t ht
  have hle := le_maxId_of_mem ht
  unfold newTaskId
  have hne : tasks ≠ [] := by rintro rfl; cases ht
  simp only [hne, if_false]
  intro hcontr
  have : t.id = maxId tasks + 1 := by exact_mod_cast of_decide_eq_true hcontr
  omega

theorem addTask_appends (tasks : List Task) (today user : String)
    (title description : String) (due_date : Option String)
    (priority category : String) (main_staff assigned_to : Option String)
    (applied_vessel rev drawing_no link sdb_link request_no : String)
    (requested_date date_started : Option String) (qtd_mhr actual_mhr : Int) :
    addTask tasks today user title description due_date priority category
        main_staff assigned_to applied_vessel rev drawing_no link sdb_link request_no
        requested_date date_started qtd_mhr actual_mhr =
      tasks ++ [addTaskRow tasks today user title description due_date priority category
        main_staff assigned_to applied_vessel rev drawing_no link sdb_link request_no
        requested_date date_started qtd_mhr actual_mhr] := by
  unfold addTask
  rw [findById_newTaskId]
  rfl

theorem foldl_execDelete_working (taskIds : List Int) (db : DB) :
    (taskIds.foldl execDelete db).working
      = db.working.filter (fun t => !(taskIds.contains t.id)) := by
  induction taskIds generalizing db with
  | nil => simp [List.filter_eq_self]
  | cons i is ih =>
    simp only [List.foldl_cons]
    rw [ih]
    simp only [execDelete]
    rw [List.filter_filter]
    apply List.filter_congr
    intro x _
    by_cases h1 : x.id = i <;> by_cases h2 : x.id ∈ is <;>
      simp [h1, h2, List.contains_cons]

theorem deleteTaskApp_spec (now : Nat) (st : AppState) (taskIds : List Int)
    (h : taskIds.filterMap (findById st.tasks) ≠ []) :
    deleteTaskApp now st taskIds =
      { tasks := st.tasks.filter (fun t => !(taskIds.contains t.id))
        deletedTasksStack :=
          pushEvict st.deletedTasksStack
            ⟨now, taskIds.filterMap (findById st.tasks), taskIds⟩ } := by
  have hne : taskIds ≠ [] := by rintro rfl; simp at h
  unfold deleteTaskApp
  rw [if_neg hne, if_neg h]
  simp only [batchDeleteTasks, commitTransaction, connCommit]
  rw [foldl_execDelete_working]
  simp

theorem find?_eq_of_id_mem_nodup {ts : List Task} (hn : (ts.map Task.id).Nodup)
    {a : Task} (ha : a ∈ ts) : ts.find? (fun t => t.id = a.id) = some a := by
  induction ts with
  | nil => cases ha
  | cons u us ih =>
    rw [List.map_cons, List.nodup_cons] at hn
    rcases List.mem_cons.mp ha with rfl | hmem
    · simp [List.find?_cons]
    · have hne : u.id ≠ a.id := by
        intro he
        exact hn.1 (he ▸ List.mem_map.mpr ⟨a, hmem, rfl⟩)
      rw [List.find?_cons, decide_eq_false hne]
      exact ih hn.2 hmem

theorem perm_cons_filter_of_nodup {ts : List Task} (hn : (ts.map Task.id).Nodup)
    {a : Task} (ha : a ∈ ts) :
    List.Perm ts (a :: ts.filter (fun t => t.id ≠ a.id)) := by
  induction ts with
  | nil => cases ha
  | cons u us ih =>
    rw [List.map_cons, List.nodup_cons] at hn
    rcases List.mem_cons.mp ha with rfl | hmem
    · rw [List.filter_cons_of_neg (by simp)]
      rw [List.filter_eq_self.mpr]
      intro x hx
      simp only [decide_eq_true_eq]
      intro he
      exact hn.1 (he ▸ List.mem_map.mpr ⟨x, hx, rfl⟩)
    · have hne : u.id ≠ a.id := by
        intro he
        exact hn.1 (he ▸ List.mem_map.mpr ⟨a, hmem, rfl⟩)
      rw [List.filter_cons_of_pos (by simpa using hne)]
      exact ((ih hn.2 hmem).cons u).trans (List.Perm.swap a u _)

theorem nodup_ids_filter {ts : List Task} (hn : (ts.map Task.id).Nodup)
    (p : Task → Bool) : ((ts.filter p).map Task.id).Nodup :=
  List.Nodup.sublist ((List.filter_sublist ts).map Task.id) hn

theorem filter_two_append_perm {ts : List Task} (hn : (ts.map Task.id).Nodup)
    {a b : Task} (ha : a ∈ ts) (hb : b ∈ ts) (hab : a.id ≠ b.id) :
    List.Perm (ts.filter (fun t => !(([a.id, b.id] : List Int).contains t.id)) ++ [a, b]) ts := by
  have h1 : List.Perm ts (a :: ts.filter (fun t => t.id ≠ a.id)) :=
    perm_cons_filter_of_nodup hn ha
  have hb' : b ∈ ts.filter (fun t => t.id ≠ a.id) := by
    rw [List.mem_filter]
    exact ⟨hb, by simpa using fun he => hab he.symm⟩
  have hn' := nodup_ids_filter hn (fun t => decide (t.id ≠ a.id))
  have h2 := perm_cons_filter_of_nodup hn' hb'
  rw [List.filter_filter] at h2
  have hfeq : ts.filter (fun t => !(([a.id, b.id] : List Int).contains t.id))
      = ts.filter (fun x => decide (x.id ≠ b.id) && decide (x.id ≠ a.id)) := by
    apply List.filter_congr
    intro x _
    by_cases e1 : x.id = a.id <;> by_cases e2 : x.id = b.id <;>
      simp [e1, e2, List.contains_cons]
  rw [hfeq]
  have t1 : List.Perm
      (ts.filter (fun x => decide (x.id ≠ b.id) && decide (x.id ≠ a.id)) ++ [a, b])
      ([a, b] ++ ts.filter (fun x => decide (x.id ≠ b.id) && decide (x.id ≠ a.id))) :=
    List.perm_append_comm
  have t2 : List.Perm
      (a :: b :: ts.filter (fun x => decide (x.id ≠ b.id) && decide (x.id ≠ a.id)))
      (a :: ts.filter (fun t => t.id ≠ a.id)) := (h2.symm).cons a
  exact (t1.trans t2).trans h1.symm

theorem getLast?_pushEvict (s : List DeletionRecord) (r : DeletionRecord) :
    (pushEvict s r).getLast? = some r := by
  unfold pushEvict
  by_cases h : (s ++ [r]).length > maxUndoStackSize
  · rw [if_pos h]
    cases s with
    | nil => simp [maxUndoStackSize] at h
    | cons x xs => simp [List.getLast?_concat]
  · rw [if_neg h]
    simp [List.getLast?_concat]

theorem findById_filter_none (ts : List Task) (ids : List Int) {i : Int}
    (hi : i ∈ ids) :
    findById (ts.filter (fun t => !(ids.contains t.id))) i = none := by
  unfold findById
  rw [List.find?_eq_none]
  intro t ht hdec
  rw [List.mem_filter] at ht
  have : t.id = i := of_decide_eq_true hdec
  subst this
  have hnm : t.id ∉ ids := by simpa using ht.2
  exact hnm hi

theorem stripProv_restamp (today user : String) (t : Task)
    (hp : pyLower t.priority = t.priority) :
    stripProv (restamp today user t) = stripProv t := by
  simp [stripProv, restamp, hp]

/-- C1, counterexample: the claim "if any id in the batch fails (including a
non-existent id) the task set is left unchanged and no History entry is
recorded" is false.  With one task (id 1) persisted, `delete_task` on the
batch `[1, 2]` — id 2 does not exist — deletes task 1 and records a deletion
record: the `DELETE` for id 2 matches no row, raises nothing, and is counted
among `successful_deletions`, so the batch commits. -/
theorem C1_batch_delete_counterexample :
    (findById [sampleTask 1 "alice"] 2 = none)
    ∧ (deleteTaskApp 0 ⟨[sampleTask 1 "alice"], []⟩ [1, 2]).tasks
        ≠ [sampleTask 1 "alice"]
    ∧ (deleteTaskApp 0 ⟨[sampleTask 1 "alice"], []⟩ [1, 2]).deletedTasksStack
        ≠ [] := by
  decide

/-- C1 (amended): non-existent ids in a delete batch are not failures — the
per-id `DELETE` affects zero rows and succeeds.  Whenever at least one id of
the batch resolves to a live task, the batch goes through: the persisted set
loses exactly the rows whose id is in the batch, and a deletion record
snapshotting the resolvable tasks is pushed (with FIFO eviction).  The task
set is left unchanged with no History entry only when no id in the batch
resolves. -/
theorem C1_batch_delete_amended (now : Nat) (st : AppState) (taskIds : List Int)
    (h : taskIds.filterMap (findById st.tasks) ≠ []) :
    (deleteTaskApp now st taskIds).tasks
        = st.tasks.filter (fun t => !(taskIds.contains t.id))
    ∧ (deleteTaskApp now st taskIds).deletedTasksStack
        = pushEvict st.deletedTasksStack
            ⟨now, taskIds.filterMap (findById st.tasks), taskIds⟩
    ∧ (∀ (st' : AppState) (ids' : List Int) (now' : Nat),
        (∀ i ∈ ids', findById st'.tasks i = none) →
        deleteTaskApp now' st' ids' = st') := by
  refine ⟨?_, ?_, ?_⟩
  · rw [deleteTaskApp_spec now st taskIds h]
  · rw [deleteTaskApp_spec now st taskIds h]
  · intro st' ids' now' hall
    have hmap : ids'.filterMap (fun i => findById st'.tasks i) = [] := by
      rw [List.filterMap_eq_nil_iff]
      exact hall
    unfold deleteTaskApp
    by_cases hne : ids' = []
    · rw [if_pos hne]
    · rw [if_neg hne]
      simp [hmap]

/-- Witness for C1 (amended) at the concrete counterexample state: the batch
`[1, 2]` over the single task with id 1 empties the persisted task set. -/
theorem C1_batch_delete_amended_witness :
    ([1, 2].filterMap (findById [sampleTask 1 "alice"]) ≠ [])
    ∧ (deleteTaskApp 0 ⟨[sampleTask 1 "alice"], []⟩ [1, 2]).tasks = [] := by
  refine ⟨by decide, ?_⟩
  have h := C1_batch_delete_amended 0 ⟨[sampleTask 1 "alice"], []⟩ [1, 2] (by decide)
  rw [h.1]
  decide

/-- C4, counterexample: the claim "otherwise the task is re-inserted with its
original id preserved and its original provenance fields intact" is false in
its provenance half: restoring the deleted task of "alice" as user "bob"
re-inserts the row with `created_by = "bob"`. -/
theorem C4_restore_counterexample :
    (findById ([] : List Task) 1 = none)
    ∧ ((restoreOne "2026-01-01" "bob" ⟨[], []⟩ (sampleTask 1 "alice")).working.map
        (fun r => r.created_by) = ["bob"])
    ∧ (sampleTask 1 "alice").created_by = "alice" := by
  decide

/-- C4 (amended): restoring a deleted task looks its id up with
`_find_task_by_id` first; a live row with that id is updated in place,
otherwise the task is re-inserted with its original id preserved (not
regenerated) and its content fields intact up to priority lowercasing — but
the provenance fields are regenerated: `created_date`/`last_modified` are
stamped with the restore date and `created_by`/`modified_by` with the
restoring user, not the originals. -/
theorem C4_restore_amended (today user : String) (db : DB) (t : Task) :
    ((findById db.working t.id).isSome →
        restoreOne today user db t = updateTaskRestore db t)
    ∧ (findById db.working t.id = none →
        restoreOne today user db t = addTaskDirectId today user db t
        ∧ (addTaskDirectId today user db t).working
            = db.working ++ [restamp today user t]
        ∧ (restamp today user t).id = t.id
        ∧ stripProv (restamp today user t)
            = stripProv { t with priority := pyLower t.priority }
        ∧ (restamp today user t).created_date = today
        ∧ (restamp today user t).created_by = user
        ∧ (restamp today user t).last_modified = some today
        ∧ (restamp today user t).modified_by = some user) := by
  constructor
  · intro hsome
    rcases Option.isSome_iff_exists.mp hsome with ⟨ex, hex⟩
    unfold restoreOne
    rw [hex]
  · intro hnone
    unfold restoreOne
    rw [hnone]
    exact ⟨rfl, rfl, rfl, rfl, rfl, rfl, rfl, rfl⟩

/-- Witness for C4 (amended): restoring the task of "alice" into an empty
store as user "bob" re-inserts it, id preserved, provenance restamped. -/
theorem C4_restore_amended_witness :
    (findById (⟨[], []⟩ : DB).working (sampleTask 1 "alice").id = none)
    ∧ (restoreOne "2026-01-01" "bob" ⟨[], []⟩ (sampleTask 1 "alice")).working
        = [restamp "2026-01-01" "bob" (sampleTask 1 "alice")] := by
  refine ⟨by decide, ?_⟩
  have h := (C4_restore_amended "2026-01-01" "bob" ⟨[], []⟩ (sampleTask 1 "alice")).2
    (by decide)
  rw [h.1, h.2.1]
  rfl

/-- C2, counterexample: the claim that `delete([a,b])` then `undo()` restores
both tasks with the same values *including provenance fields* is false: the
restore path regenerates provenance, so the tasks created by "alice" come
back stamped with the restoring user "bob" and the restore date, and the
resulting task set is not set-equal to the original. -/
theorem C2_delete_undo_counterexample :
    ¬ List.Perm
      (undoDeleteApp "2026-02-02" "bob"
        (deleteTaskApp 0 ⟨[sampleTask 1 "alice", sampleTask 2 "alice"], []⟩
          [1, 2])).tasks
      [sampleTask 1 "alice", sampleTask 2 "alice"] := by
  decide

/-- C2 (amended): for two distinct tasks `a`, `b` of a task set with unique,
ids whose stored priorities are lowercase (as every insert path stores them),
`delete([a.id, b.id])` followed by `undo()` restores both tasks with the same
id and the same content fields — set equality holds after erasing the
provenance fields (`created_date`, `created_by`, `last_modified`,
`modified_by`), which the restore restamps. -/
theorem C2_delete_undo_amended (ts : List Task) (stack0 : List DeletionRecord)
    (a b : Task) (now : Nat) (today2 user2 : String)
    (hn : (ts.map Task.id).Nodup) (ha : a ∈ ts) (hb : b ∈ ts)
    (hab : a.id ≠ b.id)
    (hpa : pyLower a.priority = a.priority) (hpb : pyLower b.priority = b.priority) :
    List.Perm
      ((undoDeleteApp today2 user2
          (deleteTaskApp now ⟨ts, stack0⟩ [a.id, b.id])).tasks.map stripProv)
      (ts.map stripProv) := by
  have hfa : findById ts a.id = some a := find?_eq_of_id_mem_nodup hn ha
  have hfb : findById ts b.id = some b := find?_eq_of_id_mem_nodup hn hb
  have hfm : ([a.id, b.id] : List Int).filterMap (findById ts) = [a, b] := by
    simp [List.filterMap_cons, hfa, hfb]
  have hspec := deleteTaskApp_spec now ⟨ts, stack0⟩ [a.id, b.id]
    (by simp [hfm])
  rw [hspec]
  simp only [hfm]
  set tasks1 := ts.filter (fun t => !(([a.id, b.id] : List Int).contains t.id)) with htasks1
  -- the pushed record is the last entry of the stack, so undo pops exactly it
  simp only [undoDeleteApp, getLast?_pushEvict]
  have hra : findById tasks1 a.id = none :=
    findById_filter_none ts [a.id, b.id] (by simp)
  have hrb : findById (tasks1 ++ [restamp today2 user2 a]) b.id = none := by
    unfold findById
    rw [List.find?_eq_none]
    intro t ht hdec
    have hte : t.id = b.id := of_decide_eq_true hdec
    rcases List.mem_append.mp ht with htl | htr
    · have := findById_filter_none ts [a.id, b.id] (i := b.id) (by simp)
      unfold findById at this
      rw [List.find?_eq_none] at this
      exact this t htl (by simp [hte])
    · have : t = restamp today2 user2 a := by simp at htr; exact htr
      subst this
      exact hab (by simpa [restamp] using hte)
  simp only [List.foldl_cons, List.foldl_nil, restoreOne]
  rw [hra]
  simp only [addTaskDirectId, connCommit]
  rw [hrb]
  simp only [addTaskDirectId, connCommit, commitTransaction]
  simp only [if_neg (List.cons_ne_nil a [b])]
  rw [List.append_assoc]
  have hperm := (filter_two_append_perm hn ha hb hab).map stripProv
  rw [List.map_append] at hperm
  simp only [List.map_append, List.map_cons, List.map_nil, List.singleton_append,
    List.cons_append, List.nil_append] at hperm ⊢
  rw [stripProv_restamp today2 user2 a hpa, stripProv_restamp today2 user2 b hpb]
  exact hperm

/-- Witness for C2 (amended) at two concrete tasks with ids 1 and 2: deleting
both and undoing yields a task set equal to the original up to provenance. -/
theorem C2_delete_undo_amended_witness :
    (([sampleTask 1 "alice", sampleTask 2 "alice"].map Task.id).Nodup
      ∧ sampleTask 1 "alice" ∈ [sampleTask 1 "alice", sampleTask 2 "alice"]
      ∧ sampleTask 2 "alice" ∈ [sampleTask 1 "alice", sampleTask 2 "alice"]
      ∧ (sampleTask 1 "alice").id ≠ (sampleTask 2 "alice").id)
    ∧ List.Perm
        ((undoDeleteApp "2026-02-02" "bob"
            (deleteTaskApp 0 ⟨[sampleTask 1 "alice", sampleTask 2 "alice"], []⟩
              [(sampleTask 1 "alice").id, (sampleTask 2 "alice").id])).tasks.map
          stripProv)
        ([sampleTask 1 "alice", sampleTask 2 "alice"].map stripProv) :=
  ⟨⟨by decide, by decide, by decide, by decide⟩,
   C2_delete_undo_amended [sampleTask 1 "alice", sampleTask 2 "alice"] []
     (sampleTask 1 "alice") (sampleTask 2 "alice") 0 "2026-02-02" "bob"
     (by decide) (by decide) (by decide) (by decide) (by decide) (by decide)⟩

theorem length_pushEvict_le (s : List DeletionRecord) (r : DeletionRecord)
    (h : s.length ≤ maxUndoStackSize) : (pushEvict s r).length ≤ maxUndoStackSize := by
  simp only [pushEvict]
  split
  · next hgt =>
    rw [List.length_tail]
    simp only [List.length_append, List.length_singleton] at hgt ⊢
    omega
  · next hle =>
    simp only [List.length_append, List.length_singleton] at hle ⊢
    omega

theorem mem_pushEvict {x : DeletionRecord} {s : List DeletionRecord}
    {r : DeletionRecord} (h : x ∈ pushEvict s r) : x ∈ s ∨ x = r := by
  simp only [pushEvict] at h
  have h2 : x ∈ s ++ [r] := by
    split at h
    · exact (List.tail_sublist _).subset h
    · exact h
  rcases List.mem_append.mp h2 with h2 | h2
  · exact Or.inl h2
  · exact Or.inr (List.mem_singleton.mp h2)

theorem not_mem_applyHistOps {r0 : DeletionRecord} (s : List DeletionRecord)
    (ops : List HistOp) (hs : r0 ∉ s)
    (hops : ∀ r, HistOp.record r ∈ ops → r ≠ r0) : r0 ∉ applyHistOps s ops := by
  induction ops generalizing s with
  | nil => exact hs
  | cons op rest ih =>
    simp only [applyHistOps, List.foldl_cons]
    apply ih
    · cases op with
      | record r =>
        intro hmem
        rcases mem_pushEvict hmem with h | h
        · exact hs h
        · exact hops r (by simp) h.symm
      | undo =>
        intro hmem
        exact hs ((List.dropLast_sublist s).subset hmem)
    · intro r hr
      exact hops r (by simp [hr])

theorem length_applyHistOps_le (s : List DeletionRecord) (ops : List HistOp)
    (h : s.length ≤ maxUndoStackSize) :
    (applyHistOps s ops).length ≤ maxUndoStackSize := by
  induction ops generalizing s with
  | nil => exact h
  | cons op rest ih =>
    simp only [applyHistOps, List.foldl_cons]
    apply ih
    cases op with
    | record r => exact length_pushEvict_le s r h
    | undo =>
      show s.dropLast.length ≤ maxUndoStackSize
      rw [List.length_dropLast]
      omega

/-- C3, counterexample: in the `task_manager_v1.1.py` implementation the
claim fails — `DailyTaskManager.record_action` appends to `undo_stack` with
no bound at all, so recording 11 actions leaves 11 > 10 (`max_depth`)
entries in the history. -/
theorem C3_bounded_history_counterexample :
    ((List.replicate 11 (V11.Action.add 0
        ⟨"t", "", "Low", "2025-01-01", false, none, none, none⟩)).foldl
      V11.recordAction ⟨[], [], []⟩).undoStack.length = 11
    ∧ 11 > maxUndoStackSize := by
  decide

/-- C3 (amended): the bounded-stack claim holds of the v44 delete/undo
history (`deleted_tasks_stack`): under any sequence of record/undo
operations the stack never exceeds `max_undo_stack_size = 10` entries;
recording onto a full stack evicts exactly the oldest entry (`pop(0)`,
i.e. the head); and an action absent from the stack — in particular an
evicted one — is never in the stack again (no later operation re-adds it
unless the same record is re-recorded), so `undo_delete`, which only pops
the most recent entry, can never apply it.  The v1.1 history is unbounded
(see the counterexample). -/
theorem C3_bounded_history_amended :
    (∀ (s : List DeletionRecord) (ops : List HistOp),
      s.length ≤ maxUndoStackSize →
      (applyHistOps s ops).length ≤ maxUndoStackSize)
    ∧ (∀ (s : List DeletionRecord) (r : DeletionRecord),
        s.length = maxUndoStackSize → pushEvict s r = s.tail ++ [r])
    ∧ (∀ (r0 : DeletionRecord) (s : List DeletionRecord) (ops : List HistOp),
        r0 ∉ s → (∀ r, HistOp.record r ∈ ops → r ≠ r0) →
        r0 ∉ applyHistOps s ops
          ∧ (applyHistOps s ops).getLast? ≠ some r0) := by
  refine ⟨length_applyHistOps_le, ?_, ?_⟩
  · intro s r h
    simp only [pushEvict]
    rw [if_pos (by simp [h, maxUndoStackSize])]
    cases s with
    | nil => simp [maxUndoStackSize] at h
    | cons x xs => rfl
  · intro r0 s ops hs hops
    have hnm := not_mem_applyHistOps s ops hs hops
    refine ⟨hnm, ?_⟩
    intro hlast
    exact hnm (List.mem_of_getLast?_eq_some hlast)

/-- Witness for C3 (amended): a concrete run — record 12 distinct records
onto the empty stack and undo once; the bound holds, eviction at the full
stack drops the head, and record number 0 (evicted) is gone for good. -/
theorem C3_bounded_history_amended_witness :
    (([] : List DeletionRecord).length ≤ maxUndoStackSize
      ∧ (List.replicate 10 (⟨5, [], []⟩ : DeletionRecord)).length = maxUndoStackSize
      ∧ (⟨0, [], [0]⟩ : DeletionRecord) ∉ ([⟨1, [], [1]⟩] : List DeletionRecord))
    ∧ (applyHistOps []
        ((List.range 12).map (fun i => HistOp.record ⟨i, [], []⟩) ++ [HistOp.undo])).length
        ≤ maxUndoStackSize
    ∧ pushEvict (List.replicate 10 ⟨5, [], []⟩) ⟨6, [], []⟩
        = (List.replicate 10 (⟨5, [], []⟩ : DeletionRecord)).tail ++ [⟨6, [], []⟩]
    ∧ (⟨0, [], [0]⟩ : DeletionRecord) ∉
        applyHistOps [⟨1, [], [1]⟩] [HistOp.record ⟨2, [], [2]⟩, HistOp.undo] :=
  ⟨⟨by decide, by decide, by decide⟩,
   C3_bounded_history_amended.1 [] _ (by decide),
   C3_bounded_history_amended.2.1 _ _ (by decide),
   (C3_bounded_history_amended.2.2 ⟨0, [], [0]⟩ [⟨1, [], [1]⟩]
     [HistOp.record ⟨2, [], [2]⟩, HistOp.undo] (by decide)
     (by
       intro r hr
       rcases List.mem_cons.mp hr with hr | hr
       · injection hr with h1
         rw [h1]
         decide
       · rw [List.mem_singleton] at hr
         simp at hr)).1⟩

/-- C5: the id assigned by `add_task` to a newly created task is
`max(existing ids, default 0) + 1` — `1` on an empty task set — and never
collides with an existing task's id; the new row is appended with exactly
that id. -/
theorem C5_new_id_is_max_plus_one (tasks : List Task) (today user : String)
    (title description : String) (due_date : Option String)
    (priority category : String) (main_staff assigned_to : Option String)
    (applied_vessel rev drawing_no link sdb_link request_no : String)
    (requested_date date_started : Option String) (qtd_mhr actual_mhr : Int) :
    newTaskId tasks = maxId tasks + 1
    ∧ (∀ t ∈ tasks, t.id ≠ newTaskId tasks)
    ∧ addTask tasks today user title description due_date priority category
        main_staff assigned_to applied_vessel rev drawing_no link sdb_link request_no
        requested_date date_started qtd_mhr actual_mhr
      = tasks ++ [addTaskRow tasks today user title description due_date priority category
        main_staff assigned_to applied_vessel rev drawing_no link sdb_link request_no
        requested_date date_started qtd_mhr actual_mhr]
    ∧ (addTaskRow tasks today user title description due_date priority category
        main_staff assigned_to applied_vessel rev drawing_no link sdb_link request_no
        requested_date date_started qtd_mhr actual_mhr).id = newTaskId tasks := by
  refine ⟨?_, ?_, addTask_appends _ _ _ _ _ _ _ _ _ _ _ _ _ _ _ _ _ _ _ _, rfl⟩
  · unfold newTaskId
    split
    · next he => rw [he]; rfl
    · rfl
  · intro t ht hcontr
    have hle := le_maxId_of_mem ht
    unfold newTaskId at hcontr
    have hne : tasks ≠ [] := by rintro rfl; cases ht
    rw [if_neg hne] at hcontr
    omega

/-- C10: `add_task` has no `completed` parameter at all and inserts the new
row with the literal `False` in the `completed` column: for every argument
combination the freshly inserted task is pending. -/
theorem C10_add_task_inserts_pending (tasks : List Task) (today user : String)
    (title description : String) (due_date : Option String)
    (priority category : String) (main_staff assigned_to : Option String)
    (applied_vessel rev drawing_no link sdb_link request_no : String)
    (requested_date date_started : Option String) (qtd_mhr actual_mhr : Int) :
    addTask tasks today user title description due_date priority category
        main_staff assigned_to applied_vessel rev drawing_no link sdb_link request_no
        requested_date date_started qtd_mhr actual_mhr
      = tasks ++ [addTaskRow tasks today user title description due_date priority category
        main_staff assigned_to applied_vessel rev drawing_no link sdb_link request_no
        requested_date date_started qtd_mhr actual_mhr]
    ∧ (addTaskRow tasks today user title description due_date priority category
        main_staff assigned_to applied_vessel rev drawing_no link sdb_link request_no
        requested_date date_started qtd_mhr actual_mhr).completed = false :=
  ⟨addTask_appends _ _ _ _ _ _ _ _ _ _ _ _ _ _ _ _ _ _ _ _, rfl⟩

/-- Witness for C5 at a concrete one-task set: the generated id is 2 and
collides with nothing. -/
theorem C5_new_id_is_max_plus_one_witness :
    newTaskId [sampleTask 1 "alice"] = maxId [sampleTask 1 "alice"] + 1
    ∧ (∀ t ∈ [sampleTask 1 "alice"], t.id ≠ newTaskId [sampleTask 1 "alice"])
    ∧ newTaskId [sampleTask 1 "alice"] = 2 :=
  ⟨(C5_new_id_is_max_plus_one [sampleTask 1 "alice"] "2026-01-01" "bob" "x" "" none
      "low" "general" none none "" "" "" "" "" "" none none 0 0).1,
   (C5_new_id_is_max_plus_one [sampleTask 1 "alice"] "2026-01-01" "bob" "x" "" none
      "low" "general" none none "" "" "" "" "" "" none none 0 0).2.1,
   by decide⟩

/-- C8 (code bug): sorting by the status/due-date column does NOT put
overdue tasks first, contradicting the code's own comment ("Overdue tasks
first", line 2435 of `src/main_v44_free_worked_tst.py`).  The key pads
`abs(days)` to only four digits while offsetting future days by 10000, and
the two are compared as strings: a task overdue by 5000 days gets key
`(0, "5000")`, a pending task due today gets `(0, "10000")`, and
`"5000" > "10000"` lexicographically, so the sort places the non-overdue
task first.  `"2012-04-24"` is exactly 5000 days before 2026-01-01. -/
theorem C8_status_sort_failing_input :
    isOverdue c8Today (taskDue 1 "2012-04-24") = true
    ∧ isOverdue c8Today (taskDue 2 "2026-01-01") = false
    ∧ (taskDue 2 "2026-01-01").completed = false
    ∧ statusKey c8Today (taskDue 1 "2012-04-24") = (0, ['5', '0', '0', '0'])
    ∧ statusKey c8Today (taskDue 2 "2026-01-01") = (0, ['1', '0', '0', '0', '0'])
    ∧ applySortingStatus c8Today [taskDue 1 "2012-04-24", taskDue 2 "2026-01-01"]
        = [taskDue 2 "2026-01-01", taskDue 1 "2012-04-24"] := by
  decide

end V44

namespace V11

theorem digitVal_dchar {d : Nat} (h : d < 10) : digitVal (dchar d) = some d := by
  interval_cases d <;> decide

theorem parse2_pad2 {n : Nat} (h : n < 100) :
    parse2 (dchar (n / 10)) (dchar (n % 10)) = some n := by
  unfold parse2
  rw [digitVal_dchar (by omega), digitVal_dchar (by omega)]
  simp only [Option.some.injEq]
  omega

theorem parse4_pad4 {n : Nat} (h : n < 10000) :
    parse4 (dchar (n / 1000)) (dchar (n / 100 % 10)) (dchar (n / 10 % 10))
      (dchar (n % 10)) = some n := by
  unfold parse4
  rw [digitVal_dchar (by omega), digitVal_dchar (by omega),
    digitVal_dchar (by omega), digitVal_dchar (by omega)]
  simp only [Option.some.injEq]
  omega

theorem parse6_pad6 {n : Nat} (h : n < 1000000) :
    parse6 (dchar (n / 100000)) (dchar (n / 10000 % 10)) (dchar (n / 1000 % 10))
      (dchar (n / 100 % 10)) (dchar (n / 10 % 10)) (dchar (n % 10)) = some n := by
  unfold parse6
  rw [digitVal_dchar (by omega), digitVal_dchar (by omega), digitVal_dchar (by omega),
    digitVal_dchar (by omega), digitVal_dchar (by omega), digitVal_dchar (by omega)]
  simp only [Option.some.injEq]
  omega

theorem fromisoformat_isoformat (t : PyDateTime) (h : validDT t) :
    fromisoformat (isoformat t) = some t := by
  obtain ⟨y, mo, d, hh, mi, ss, u⟩ := t
  simp only [validDT] at h
  obtain ⟨hy1, hy2, hm1, hm2, hd1, hd2, hh1, hmi1, hs1, hu1⟩ := h
  have hd31 : d ≤ 31 := le_trans hd2 (PyDate.daysInMonth_le_31 y mo)
  have hv0 : validDT ⟨y, mo, d, hh, mi, ss, 0⟩ := by
    unfold validDT
    exact ⟨hy1, hy2, hm1, hm2, hd1, hd2, hh1, hmi1, hs1, Nat.zero_le _⟩
  have hvu : validDT ⟨y, mo, d, hh, mi, ss, u⟩ := by
    unfold validDT
    exact ⟨hy1, hy2, hm1, hm2, hd1, hd2, hh1, hmi1, hs1, hu1⟩
  by_cases hu : u = 0
  · subst hu
    simp only [isoformat, pad4, pad2, pad6, if_pos rfl]
    simp only [List.cons_append, List.nil_append, List.append_nil]
    simp only [fromisoformat]
    rw [parse4_pad4 (by omega), parse2_pad2 (by omega), parse2_pad2 (by omega),
      parse2_pad2 (by omega), parse2_pad2 (by omega), parse2_pad2 (by omega)]
    simp [mkValid, hv0]
  · simp only [isoformat, pad4, pad2, pad6, if_neg hu]
    simp only [List.cons_append, List.nil_append, List.append_nil]
    simp only [fromisoformat]
    rw [parse4_pad4 (by omega), parse2_pad2 (by omega), parse2_pad2 (by omega),
      parse2_pad2 (by omega), parse2_pad2 (by omega), parse2_pad2 (by omega),
      parse6_pad6 (by omega)]
    simp [mkValid, hvu]

theorem mapM_iso_roundtrip (rems : List PyDateTime) (h : ∀ r ∈ rems, validDT r) :
    (rems.map isoformat).mapM fromisoformat = some rems := by
  induction rems with
  | nil => rfl
  | cons r rs ih =>
    simp only [List.map_cons, List.mapM_cons]
    rw [fromisoformat_isoformat r (h r (by simp))]
    rw [ih (fun x hx => h x (by simp [hx]))]
    rfl

/-- C9: serialisation round-trips without field loss — for every task (whose
reminders are well-formed `datetime` values, as Python's `datetime` type
guarantees by construction), `Task.from_dict(Task.to_dict(t))` reproduces the
task exactly: same title, description, priority, due_date, completed,
category, reminders and notes. -/
theorem C9_serialization_round_trip (t : Task) (h : ∀ r ∈ t.reminders, validDT r) :
    fromDict (toDict t) = some t := by
  unfold fromDict toDict
  simp only [Option.getD_some]
  rw [mapM_iso_roundtrip t.reminders h]

/-- Witness for C9 at a concrete task carrying one reminder. -/
theorem C9_serialization_round_trip_witness :
    (∀ r ∈ sampleTaskV11.reminders, validDT r)
    ∧ fromDict (toDict sampleTaskV11) = some sampleTaskV11 :=
  ⟨by decide, C9_serialization_round_trip sampleTaskV11 (by decide)⟩

/-- C7: on a task set holding exactly one recorded `add` action (the task was
appended and the action recorded at index `len(tasks) - 1`), the sequence
`undo(); redo(); undo()` is idempotent in effect: the task set after the
second `undo` equals the task set after the first `undo`. -/
theorem C7_undo_redo_undo_idempotent (ts0 : List Task) (t : Task) :
    (undoOp (redoOp (undoOp
        ⟨ts0 ++ [t], [Action.add ts0.length (toDict t)], []⟩))).tasks
      = (undoOp ⟨ts0 ++ [t], [Action.add ts0.length (toDict t)], []⟩).tasks := by
  have herase : ∀ x : Task, (ts0 ++ [x]).eraseIdx ts0.length = ts0 := by
    intro x
    rw [List.eraseIdx_append_of_length_le (le_refl _)]
    simp
  have h1 : undoOp ⟨ts0 ++ [t], [Action.add ts0.length (toDict t)], []⟩
      = ⟨ts0, [], [Action.add ts0.length (toDict t)]⟩ := by
    show (⟨(ts0 ++ [t]).eraseIdx ts0.length, [], [Action.add ts0.length (toDict t)]⟩
        : AppState) = ⟨ts0, [], [Action.add ts0.length (toDict t)]⟩
    rw [herase]
  rw [h1]
  have h2 : redoOp ⟨ts0, [], [Action.add ts0.length (toDict t)]⟩
      = ⟨(match fromDict (toDict t) with
          | some t2 => ts0 ++ [t2]
          | none => ts0), [Action.add ts0.length (toDict t)], []⟩ := rfl
  rw [h2]
  cases hfd : fromDict (toDict t) with
  | some t2 =>
    show (ts0 ++ [t2]).eraseIdx ts0.length = ts0
    exact herase t2
  | none =>
    show ts0.eraseIdx ts0.length = ts0
    exact List.eraseIdx_of_length_le (le_refl _)

theorem fromDict_title {d : TaskDict} {t : Task} (h : fromDict d = some t) :
    t.title = d.title := by
  unfold fromDict at h
  cases hm : (d.reminders.getD []).mapM fromisoformat with
  | some rems =>
    rw [hm] at h
    injection h with h2
    rw [← h2]
  | none =>
    rw [hm] at h
    cases h

theorem mem_pyInsert {l : List Task} {i : Nat} {t x : Task}
    (h : x ∈ pyInsert l i t) : x ∈ l ∨ x = t := by
  unfold pyInsert at h
  split at h
  · rcases (List.mem_insertIdx (by assumption)).mp h with h | h
    · exact Or.inr h
    · exact Or.inl h
  · rcases List.mem_append.mp h with h | h
    · exact Or.inl h
    · exact Or.inr (by simpa using h)

theorem addTaskOp_preserves_inv (raw : RawInput) (s : AppState) (hs : StateInv s) :
    StateInv (addTaskOp raw s) := by
  simp only [addTaskOp, recordAction]
  split
  · exact hs
  · next hcond =>
    push_neg at hcond
    refine ⟨?_, ?_, ?_⟩
    · intro x hx
      rcases List.mem_append.mp hx with hx | hx
      · exact hs.1 x hx
      · rw [List.mem_singleton.mp hx]
        exact hcond.1
    · intro a ha
      rcases List.mem_append.mp ha with ha | ha
      · exact hs.2.1 a ha
      · rw [List.mem_singleton.mp ha]
        exact hcond.1
    · intro a ha
      cases ha

theorem editTaskOp_preserves_inv (i : Nat) (raw : RawInput) (s : AppState)
    (hs : StateInv s) : StateInv (editTaskOp i raw s) := by
  simp only [editTaskOp]
  split
  · next hi =>
    simp only [recordAction]
    split
    · exact hs
    · next hcond =>
      push_neg at hcond
      refine ⟨?_, ?_, ?_⟩
      · intro x hx
        rcases List.mem_or_eq_of_mem_set hx with hx | hx
        · exact hs.1 x hx
        · rw [hx]
          exact hcond.1
      · intro a ha
        rcases List.mem_append.mp ha with ha | ha
        · exact hs.2.1 a ha
        · rw [List.mem_singleton.mp ha]
          refine ⟨?_, hcond.1⟩
          exact hs.1 _ (s.tasks.getElem_mem hi)
      · intro a ha
        cases ha
  · exact hs

theorem undoOp_preserves_inv (s : AppState) (hs : StateInv s) :
    StateInv (undoOp s) := by
  unfold undoOp
  cases hl : s.undoStack.getLast? with
  | none => exact hs
  | some a =>
    have hok := hs.2.1 a (List.mem_of_getLast?_eq_some hl)
    have hstacks : (∀ b ∈ s.undoStack.dropLast, actionOk b)
        ∧ (∀ b ∈ s.redoStack ++ [a], actionOk b) := by
      constructor
      · intro b hb
        exact hs.2.1 b ((List.dropLast_sublist s.undoStack).subset hb)
      · intro b hb
        rcases List.mem_append.mp hb with hb | hb
        · exact hs.2.2 b hb
        · have hb2 : b = a := by simpa using hb
          rw [hb2]
          exact hok
    cases a with
    | add i d =>
      dsimp only
      refine ⟨?_, hstacks.1, hstacks.2⟩
      intro x hx
      exact hs.1 x ((List.eraseIdx_sublist s.tasks i).subset hx)
    | edit i o n =>
      cases hfd : fromDict o with
      | some t =>
        simp only [hfd]
        refine ⟨?_, hstacks.1, hstacks.2⟩
        intro x hx
        rcases List.mem_or_eq_of_mem_set hx with hx | hx
        · exact hs.1 x hx
        · rw [hx, fromDict_title hfd]
          exact hok.1
      | none =>
        simp only [hfd]
        exact ⟨hs.1, hstacks.1, hstacks.2⟩
    | delete i o =>
      cases hfd : fromDict o with
      | some t =>
        simp only [hfd]
        refine ⟨?_, hstacks.1, hstacks.2⟩
        intro x hx
        rcases mem_pyInsert hx with hx | hx
        · exact hs.1 x hx
        · rw [hx, fromDict_title hfd]
          exact hok
      | none =>
        simp only [hfd]
        exact ⟨hs.1, hstacks.1, hstacks.2⟩
    | clearCompleted old =>
      dsimp only
      exact ⟨hok, hstacks.1, hstacks.2⟩

theorem redoOp_preserves_inv (s : AppState) (hs : StateInv s) :
    StateInv (redoOp s) := by
  unfold redoOp
  cases hl : s.redoStack.getLast? with
  | none => exact hs
  | some a =>
    have hok := hs.2.2 a (List.mem_of_getLast?_eq_some hl)
    have hstacks : (∀ b ∈ s.undoStack ++ [a], actionOk b)
        ∧ (∀ b ∈ s.redoStack.dropLast, actionOk b) := by
      constructor
      · intro b hb
        rcases List.mem_append.mp hb with hb | hb
        · exact hs.2.1 b hb
        · have hb2 : b = a := by simpa using hb
          rw [hb2]
          exact hok
      · intro b hb
        exact hs.2.2 b ((List.dropLast_sublist s.redoStack).subset hb)
    cases a with
    | add i d =>
      cases hfd : fromDict d with
      | some t =>
        simp only [hfd]
        refine ⟨?_, hstacks.1, hstacks.2⟩
        intro x hx
        rcases List.mem_append.mp hx with hx | hx
        · exact hs.1 x hx
        · rw [List.mem_singleton.mp hx, fromDict_title hfd]
          exact hok
      | none =>
        simp only [hfd]
        exact ⟨hs.1, hstacks.1, hstacks.2⟩
    | edit i o n =>
      cases hfd : fromDict n with
      | some t =>
        simp only [hfd]
        refine ⟨?_, hstacks.1, hstacks.2⟩
        intro x hx
        rcases List.mem_or_eq_of_mem_set hx with hx | hx
        · exact hs.1 x hx
        · rw [hx, fromDict_title hfd]
          exact hok.2
      | none =>
        simp only [hfd]
        exact ⟨hs.1, hstacks.1, hstacks.2⟩
    | delete i o =>
      dsimp only
      refine ⟨?_, hstacks.1, hstacks.2⟩
      intro x hx
      exact hs.1 x ((List.eraseIdx_sublist s.tasks i).subset hx)
    | clearCompleted old =>
      dsimp only
      refine ⟨?_, hstacks.1, hstacks.2⟩
      intro x hx
      exact hs.1 x ((List.filter_sublist s.tasks).subset hx)

/-- C6, counterexample: not every operation that introduces persisted tasks
preserves the non-empty-title invariant — `import_tasks` performs no title
validation, so importing a record whose `title` is the empty string into an
invariant-satisfying (empty) state persists a task with an empty title. -/
theorem C6_title_counterexample :
    StateInv ⟨[], [], []⟩
    ∧ ¬ (∀ t ∈ (importTasks ⟨[], [], []⟩
          [⟨"", "", "Low", "2025-01-01", false, none, none, none⟩]).tasks,
        t.title ≠ "") := by
  decide

/-- C6 (amended): the operations that validate input — `add_task` and
`edit_task` — and the undo/redo replay preserve the invariant that every
persisted task (and every snapshot held by the history) has a non-empty
title; `import_tasks` and the load path perform no title validation and can
persist empty-titled records. -/
theorem C6_title_invariant_amended :
    (∀ (raw : RawInput) (s : AppState), StateInv s → StateInv (addTaskOp raw s))
    ∧ (∀ (i : Nat) (raw : RawInput) (s : AppState),
        StateInv s → StateInv (editTaskOp i raw s))
    ∧ (∀ s : AppState, StateInv s → StateInv (undoOp s))
    ∧ (∀ s : AppState, StateInv s → StateInv (redoOp s)) :=
  ⟨addTaskOp_preserves_inv, editTaskOp_preserves_inv,
   undoOp_preserves_inv, redoOp_preserves_inv⟩

/-- Witness for C6 (amended): adding a task through the validated path to the
empty state keeps the invariant. -/
theorem C6_title_invariant_amended_witness :
    StateInv ⟨[], [], []⟩ ∧ StateInv (addTaskOp sampleRaw ⟨[], [], []⟩) :=
  ⟨by decide, C6_title_invariant_amended.1 sampleRaw ⟨[], [], []⟩ (by decide)⟩

end V11
